import Mathlib

/-!
Verification of `src/compiler/translator/Cache.cpp` (ANGLE): a process-wide
interning cache of `TType` descriptors keyed by a packed integer encoding of
five small attributes.

Shallow embedding choices:
* Machine pointers are modelled as ghost identities (`Nat`); `0` plays the
  role of `nullptr`.  A freshly `new`-ed object receives the current value of
  a monotone counter, so two distinct constructions never share an identity.
* The `TypeKey` union overlays a wide unsigned integer `value` with a packed
  struct of five one-byte fields at byte offsets 0..4 (little-endian integer
  view); we model the integer view as a `Nat` (`byte i` contributes a factor
  `2 ^ (8 * i)`).
* The pool-allocator machinery is modelled by its observable state: the
  ambient (global) allocation target is an arena identity stored in the
  global state, with get/set accessors, exactly the surface `Cache.cpp` uses.
* `std::map<TypeKey, const TType *>` is modelled as an association list keyed
  by the packed integer; `insert` is only ever called on a missing key, where
  prepending is an exact model.
* `getType` dereferences the singleton without a null check; the embedding
  returns `Option`, with `none` standing for the undefined behaviour of
  calling it while the cache does not exist.
-/

/-- The `TType` descriptor as observable from `Cache.cpp`: its five
construction attributes, whether `realize()` has been invoked, the ghost
pointer identity of the object, and the arena that was the ambient
allocation target when it was `new`-ed (which arena owns its storage). -/
structure TType where
  ptr : Nat
  arena : Nat
  basicType : Nat
  precision : Nat
  qualifier : Nat
  primarySize : Nat
  secondarySize : Nat
  realized : Bool
deriving Repr, DecidableEq

/-- The singleton's members used by `Cache.cpp`: `mTypes` (the key-to-pointer
mapping) and `mAllocator` (the identity of the cache's private arena).
The class declaration lives in `Cache.h`, which is not under `src/`; the
member set is evidenced by the uses `sCache->mTypes` / `sCache->mAllocator`
in `Cache.cpp`, and construction is modelled from the spec: a fresh instance
has an empty mapping and a fresh arena. -/
structure TCacheState where
  mTypes : List (Nat × TType)
  mAllocator : Nat
deriving Repr, DecidableEq

/-- The process-wide mutable state touched by `Cache.cpp`: the singleton
pointer `sCache` (`none` = null), the ambient global pool-allocation target,
and two ghost counters supplying fresh object and arena identities. -/
structure GlobalState where
  sCache : Option TCacheState
  globalPoolAllocator : Nat
  nextPtr : Nat
  nextArena : Nat
deriving Repr, DecidableEq

/-- Models `GetGlobalPoolAllocator()`: read the ambient allocation target. -/
def GetGlobalPoolAllocator (s : GlobalState) : Nat :=
  s.globalPoolAllocator

/-- Models `SetGlobalPoolAllocator(a)`: install `a` as the ambient allocation
target. -/
def SetGlobalPoolAllocator (a : Nat) (s : GlobalState) : GlobalState :=
  { s with globalPoolAllocator := a }

/-- Models `TCache::TypeKey::TypeKey(basicType, precision, qualifier, primarySize,
secondarySize)` (Cache.cpp:37-61).  `uninit` models the indeterminate
initial contents of the union's storage; the constructor discards it by the
assignment `value = 0` and then writes the five one-byte components:
`basicType`, `precision`, `qualifier` are narrowed by
`static_cast<EnumComponentType>` (one byte, hence `% 256`), and the two
sizes are already `unsigned char`.  Bytes 5 and up of `value` stay zero. -/
def TCache.TypeKey.construct (uninit basicType precision qualifier
    primarySize secondarySize : Nat) : Nat :=
  let value : Nat := 0
  value
    + basicType % 256
    + precision % 256 * 2 ^ 8
    + qualifier % 256 * 2 ^ 16
    + primarySize % 256 * 2 ^ 24
    + secondarySize % 256 * 2 ^ 32

/-- The key actually used by `getType` (union storage contents before the
constructor runs are irrelevant, see `construct`). -/
def TCache.TypeKey.value (basicType precision qualifier
    primarySize secondarySize : Nat) : Nat :=
  TCache.TypeKey.construct 0 basicType precision qualifier
    primarySize secondarySize

/-- Models `mTypes.find(key)`: first entry with the given key, if any
(`std::map` keys are unique, so first match is the match). -/
def findType : List (Nat × TType) → Nat → Option TType
  | [], _ => none
  | (k, t) :: rest, key => if k = key then some t else findType rest key

/-- Models `new TType(basicType, precision, qualifier, primarySize,
secondarySize)`: allocate a descriptor from the current ambient allocation
target, with a fresh ghost identity. -/
def TType.construct (basicType precision qualifier primarySize
    secondarySize : Nat) (s : GlobalState) : TType × GlobalState :=
  ({ ptr := s.nextPtr
     arena := s.globalPoolAllocator
     basicType := basicType
     precision := precision
     qualifier := qualifier
     primarySize := primarySize
     secondarySize := secondarySize
     realized := false },
   { s with nextPtr := s.nextPtr + 1 })

/-- Models `type->realize()`: the one-time finalize step. -/
def TType.realize (t : TType) : TType :=
  { t with realized := true }

/-- Modelled from the spec: `new TCache()` (Cache.cpp:118) - the constructor
is declared in the missing `Cache.h`; per the spec a fresh instance holds an
empty mapping and a fresh arena. -/
def TCache.construct (s : GlobalState) : TCacheState × GlobalState :=
  ({ mTypes := [], mAllocator := s.nextArena },
   { s with nextArena := s.nextArena + 1 })

/-- Models `TCache::initialize()` (Cache.cpp:113-120): under the cache mutex, if
`sCache` is null construct the singleton, else do nothing.  (Named
`initCache` here; Lean tooling reserves the source's exact name.) -/
def TCache.initCache (s : GlobalState) : GlobalState :=
  match s.sCache with
  | some _ => s
  | none =>
      let (c, s1) := TCache.construct s
      { s1 with sCache := some c }

/-- Models `TCache::destroy()` (Cache.cpp:122-126): under the cache mutex,
`SafeDelete(sCache)` - delete the singleton if non-null (a no-op on null)
and set the pointer to null. -/
def TCache.destroy (s : GlobalState) : GlobalState :=
  { s with sCache := none }

/-- Models `TCache::getType(...)` (Cache.cpp:128-151), one whole critical section:
compute the key; look it up in `sCache->mTypes`; on hit return the stored
pointer unchanged; on miss install the cache's private arena as the ambient
allocation target (`TScopedAllocator`, Cache.cpp:18-33), construct and
realize a fresh `TType`, insert it under the key, restore the previous
ambient allocation target (the scoped allocator's destructor runs when the
function exits), and return the new object.  `none` models the undefined
behaviour of the unchecked `sCache->` dereference when no singleton
exists. -/
def TCache.getType (basicType precision qualifier primarySize
    secondarySize : Nat) (s : GlobalState) : Option (TType × GlobalState) :=
  match s.sCache with
  | none => none
  | some c =>
      let key := TCache.TypeKey.value basicType precision qualifier
        primarySize secondarySize
      match findType c.mTypes key with
      | some t => some (t, s)
      | none =>
          let prev := GetGlobalPoolAllocator s
          let s1 := SetGlobalPoolAllocator c.mAllocator s
          let (t0, s2) := TType.construct basicType precision qualifier
            primarySize secondarySize s1
          let t := TType.realize t0
          let c1 : TCacheState := { c with mTypes := (key, t) :: c.mTypes }
          let s3 := { s2 with sCache := some c1 }
          let s4 := SetGlobalPoolAllocator prev s3
          some (t, s4)

/-- The state at process start: no singleton, some caller arena (`0`) as the
ambient allocation target, ghost counters starting above the null
identity. -/
def initialState : GlobalState :=
  { sCache := none, globalPoolAllocator := 0, nextPtr := 1, nextArena := 1 }

/-- Ghost well-formedness: identities handed out so far are positive and
below the fresh counter; every pointer stored in the mapping was handed out
by a past construction. -/
def WF (s : GlobalState) : Prop :=
  0 < s.nextPtr ∧
  ∀ c, s.sCache = some c →
    ∀ kt ∈ c.mTypes, 0 < kt.2.ptr ∧ kt.2.ptr < s.nextPtr

instance (s : GlobalState) : Decidable (WF s) := by
  unfold WF
  cases s.sCache with
  | none => exact instDecidableAnd
  | some c => exact instDecidableAnd

/-- Unfolding equation for `getType` on a hit: the stored pointer is
returned and the state is untouched. -/
theorem getType_hit_eq (b p q ps ss : Nat) (s : GlobalState)
    (c : TCacheState) (t : TType) (h : s.sCache = some c)
    (hf : findType c.mTypes (TCache.TypeKey.value b p q ps ss) = some t) :
    TCache.getType b p q ps ss s = some (t, s) := by
  unfold TCache.getType
  rw [h]
  simp only [hf]

/-- Unfolding equation for `getType` on a miss: the freshly constructed,
realized descriptor is returned; it is inserted into the mapping; the
fresh-pointer counter advances once; the ambient allocation target is
restored. -/
theorem getType_miss_eq (b p q ps ss : Nat) (s : GlobalState)
    (c : TCacheState) (h : s.sCache = some c)
    (hf : findType c.mTypes (TCache.TypeKey.value b p q ps ss) = none) :
    TCache.getType b p q ps ss s = some
      (⟨s.nextPtr, c.mAllocator, b, p, q, ps, ss, true⟩,
       ⟨some ⟨(TCache.TypeKey.value b p q ps ss,
                ⟨s.nextPtr, c.mAllocator, b, p, q, ps, ss, true⟩)
               :: c.mTypes, c.mAllocator⟩,
        s.globalPoolAllocator, s.nextPtr + 1, s.nextArena⟩) := by
  unfold TCache.getType
  rw [h]
  simp only [hf]
  rfl

/-- After a miss, looking the key straight back up finds the new entry. -/
theorem findType_cons_self (key : Nat) (t : TType) (rest : List (Nat × TType)) :
    findType ((key, t) :: rest) key = some t := by
  simp [findType]

/-- Looking up past a prepended entry with a different key falls through. -/
theorem findType_cons_ne (k key : Nat) (t : TType) (rest : List (Nat × TType))
    (h : k ≠ key) : findType ((k, t) :: rest) key = findType rest key := by
  simp [findType, h]

/-- Key injectivity on the byte domain: two tuples whose fields all fit in
one byte and that agree in packed value agree in every field. -/
theorem typeKey_fields_of_value_eq
    (b p q ps ss b' p' q' ps' ss' : Nat)
    (hb : b < 256) (hp : p < 256) (hq : q < 256) (hps : ps < 256)
    (hss : ss < 256) (hb' : b' < 256) (hp' : p' < 256) (hq' : q' < 256)
    (hps' : ps' < 256) (hss' : ss' < 256)
    (h : TCache.TypeKey.value b p q ps ss
       = TCache.TypeKey.value b' p' q' ps' ss') :
    b = b' ∧ p = p' ∧ q = q' ∧ ps = ps' ∧ ss = ss' := by
  unfold TCache.TypeKey.value TCache.TypeKey.construct at h
  simp only [Nat.mod_eq_of_lt hb, Nat.mod_eq_of_lt hp, Nat.mod_eq_of_lt hq,
    Nat.mod_eq_of_lt hps, Nat.mod_eq_of_lt hss, Nat.mod_eq_of_lt hb',
    Nat.mod_eq_of_lt hp', Nat.mod_eq_of_lt hq', Nat.mod_eq_of_lt hps',
    Nat.mod_eq_of_lt hss'] at h
  omega

/-- A key found in the mapping corresponds to a stored entry. -/
theorem findType_mem (m : List (Nat × TType)) (key : Nat) (t : TType)
    (h : findType m key = some t) : (key, t) ∈ m := by
  induction m with
  | nil => simp [findType] at h
  | cons kt rest ih =>
      obtain ⟨k, v⟩ := kt
      by_cases hk : k = key
      · subst hk
        simp [findType] at h
        subst h
        exact List.mem_cons_self _ _
      · rw [findType_cons_ne k key v rest hk] at h
        exact List.mem_cons_of_mem _ (ih h)

/-- C1: for every attribute-tuple, two `getType` calls with no intervening
`destroy` return the identical stored object - the second call finds the
entry inserted (or already present) at the first call and returns the very
same stored pointer with the state unchanged - and no entry present before
the call is ever replaced or evicted by it. -/
theorem getType_interning (b p q ps ss : Nat) (s : GlobalState)
    (c : TCacheState) (h : s.sCache = some c) :
    ∃ t s1, TCache.getType b p q ps ss s = some (t, s1) ∧
      TCache.getType b p q ps ss s1 = some (t, s1) ∧
      ∀ k v, findType c.mTypes k = some v →
        ∃ c1, s1.sCache = some c1 ∧ findType c1.mTypes k = some v := by
  cases hf : findType c.mTypes (TCache.TypeKey.value b p q ps ss) with
  | some t =>
      refine ⟨t, s, getType_hit_eq b p q ps ss s c t h hf,
        getType_hit_eq b p q ps ss s c t h hf, ?_⟩
      intro k v hkv
      exact ⟨c, h, hkv⟩
  | none =>
      rw [getType_miss_eq b p q ps ss s c h hf]
      refine ⟨_, _, rfl, ?_, ?_⟩
      · exact getType_hit_eq b p q ps ss _ _ _ rfl
          (findType_cons_self _ _ _)
      · intro k v hkv
        refine ⟨_, rfl, ?_⟩
        have hk : TCache.TypeKey.value b p q ps ss ≠ k := by
          intro he
          rw [he] at hf
          rw [hf] at hkv
          exact Option.noConfusion hkv
        rw [findType_cons_ne _ _ _ _ hk]
        exact hkv

/-- C1 witness at a concrete state. -/
def freshCacheState : GlobalState :=
  TCache.initCache initialState

theorem getType_interning_witness :
    ∃ t s1, TCache.getType 1 2 3 1 1 freshCacheState = some (t, s1) ∧
      TCache.getType 1 2 3 1 1 s1 = some (t, s1) ∧
      ∀ k v, findType (TCacheState.mk [] 1).mTypes k = some v →
        ∃ c1, s1.sCache = some c1 ∧ findType c1.mTypes k = some v :=
  getType_interning 1 2 3 1 1 freshCacheState ⟨[], 1⟩ rfl

/-- C2: on the one-byte domain of each field, the key encoding is
injective: tuples that differ in at least one field get different keys; in
particular, starting from an empty cache, two `getType` calls that differ
only in `basicType` produce two distinct keys and two distinct objects. -/
theorem typeKey_injective (b p q ps ss b' p' q' ps' ss' : Nat)
    (hb : b < 256) (hp : p < 256) (hq : q < 256) (hps : ps < 256)
    (hss : ss < 256) (hb' : b' < 256) (hp' : p' < 256) (hq' : q' < 256)
    (hps' : ps' < 256) (hss' : ss' < 256)
    (hne : ¬(b = b' ∧ p = p' ∧ q = q' ∧ ps = ps' ∧ ss = ss')) :
    TCache.TypeKey.value b p q ps ss ≠ TCache.TypeKey.value b' p' q' ps' ss' ∧
    ∀ s arena, s.sCache = some ⟨[], arena⟩ → b ≠ b' →
      ∃ t1 s1 t2 s2,
        TCache.getType b p q ps ss s = some (t1, s1) ∧
        TCache.getType b' p q ps ss s1 = some (t2, s2) ∧
        t1.ptr ≠ t2.ptr := by
  constructor
  · intro he
    exact hne (typeKey_fields_of_value_eq b p q ps ss b' p' q' ps' ss'
      hb hp hq hps hss hb' hp' hq' hps' hss' he)
  · intro s arena hs hbb
    have hkey : TCache.TypeKey.value b' p q ps ss
        ≠ TCache.TypeKey.value b p q ps ss := by
      intro he
      exact hbb (typeKey_fields_of_value_eq b' p q ps ss b p q ps ss
        hb' hp hq hps hss hb hp hq hps hss he).1.symm
    have h1 := getType_miss_eq b p q ps ss s ⟨[], arena⟩ hs rfl
    have hmiss : findType [(TCache.TypeKey.value b p q ps ss,
        (⟨s.nextPtr, arena, b, p, q, ps, ss, true⟩ : TType))]
        (TCache.TypeKey.value b' p q ps ss) = none := by
      rw [findType_cons_ne _ _ _ _ (fun he => hkey he.symm)]
      rfl
    have h2 := getType_miss_eq b' p q ps ss
      ⟨some ⟨[(TCache.TypeKey.value b p q ps ss,
          ⟨s.nextPtr, arena, b, p, q, ps, ss, true⟩)], arena⟩,
        s.globalPoolAllocator, s.nextPtr + 1, s.nextArena⟩
      ⟨[(TCache.TypeKey.value b p q ps ss,
          ⟨s.nextPtr, arena, b, p, q, ps, ss, true⟩)], arena⟩
      rfl hmiss
    refine ⟨_, _, _, _, h1, h2, ?_⟩
    show s.nextPtr ≠ s.nextPtr + 1
    omega

/-- C2 witness: `getType(1, 2, 3, 1, 1)` then `getType(2, 2, 3, 1, 1)`
from a fresh cache. -/
theorem typeKey_injective_witness :
    TCache.TypeKey.value 1 2 3 1 1 ≠ TCache.TypeKey.value 2 2 3 1 1 ∧
    (∃ t1 s1 t2 s2,
      TCache.getType 1 2 3 1 1 freshCacheState = some (t1, s1) ∧
      TCache.getType 2 2 3 1 1 s1 = some (t2, s2) ∧
      t1.ptr ≠ t2.ptr) := by
  have h := typeKey_injective 1 2 3 1 1 2 2 3 1 1
    (by decide) (by decide) (by decide) (by decide) (by decide)
    (by decide) (by decide) (by decide) (by decide) (by decide)
    (by decide)
  exact ⟨h.1, h.2 freshCacheState 1 rfl (by decide)⟩

/-- C3: every execution of `getType` that reaches the miss path constructs
the new descriptor while the ambient allocation target is the cache's
private arena (the constructed object's storage is attributed to
`mAllocator`), and on return the ambient allocation target is restored to
exactly its value from before the call. -/
theorem getType_scoped_allocator (b p q ps ss : Nat) (s : GlobalState)
    (c : TCacheState) (h : s.sCache = some c)
    (hm : findType c.mTypes (TCache.TypeKey.value b p q ps ss) = none) :
    ∃ t s1, TCache.getType b p q ps ss s = some (t, s1) ∧
      t.arena = c.mAllocator ∧
      s1.globalPoolAllocator = s.globalPoolAllocator := by
  exact ⟨_, _, getType_miss_eq b p q ps ss s c h hm, rfl, rfl⟩

/-- C3 witness at a concrete miss. -/
theorem getType_scoped_allocator_witness :
    ∃ t s1, TCache.getType 1 2 3 1 1 freshCacheState = some (t, s1) ∧
      t.arena = (TCacheState.mk [] 1).mAllocator ∧
      s1.globalPoolAllocator = freshCacheState.globalPoolAllocator :=
  getType_scoped_allocator 1 2 3 1 1 freshCacheState ⟨[], 1⟩ rfl rfl

/-- N threads each performing one `getType(T)` call.  Every call's body is a
single critical section under the one process-wide cache mutex
(`AutoEnterCacheMutex`, Cache.cpp:102-109, entered at Cache.cpp:134), so a
concurrent execution of the N calls is exactly some sequential ordering of
them; as the N calls are identical, every ordering is this iteration. -/
def runConcurrentGetType (b p q ps ss : Nat) :
    Nat → GlobalState → Option (List TType × GlobalState)
  | 0, s => some ([], s)
  | Nat.succ n, s =>
      match TCache.getType b p q ps ss s with
      | none => none
      | some (t, s1) =>
          match runConcurrentGetType b p q ps ss n s1 with
          | none => none
          | some (ts, s2) => some (t :: ts, s2)

/-- Once the key is cached, any number of further calls return the stored
object and leave the state untouched. -/
theorem runConcurrentGetType_hits (b p q ps ss n : Nat) (s : GlobalState)
    (c : TCacheState) (t : TType) (h : s.sCache = some c)
    (hf : findType c.mTypes (TCache.TypeKey.value b p q ps ss) = some t) :
    runConcurrentGetType b p q ps ss n s = some (List.replicate n t, s) := by
  induction n with
  | zero => rfl
  | succ n ih =>
      unfold runConcurrentGetType
      rw [getType_hit_eq b p q ps ss s c t h hf]
      simp only [ih, List.replicate_succ]

/-- C4: N threads concurrently calling `getType(T)` for a tuple T never
cached before: the mutex serializes the calls (see
`runConcurrentGetType`), exactly one descriptor is constructed (the
fresh-pointer counter advances exactly once), and all N calls return the
same object. -/
theorem getType_concurrent_once (b p q ps ss n : Nat) (s : GlobalState)
    (c : TCacheState) (h : s.sCache = some c)
    (hm : findType c.mTypes (TCache.TypeKey.value b p q ps ss) = none) :
    ∃ t s1, runConcurrentGetType b p q ps ss (n + 1) s
        = some (List.replicate (n + 1) t, s1) ∧
      s1.nextPtr = s.nextPtr + 1 := by
  refine ⟨⟨s.nextPtr, c.mAllocator, b, p, q, ps, ss, true⟩,
    ⟨some ⟨(TCache.TypeKey.value b p q ps ss,
        ⟨s.nextPtr, c.mAllocator, b, p, q, ps, ss, true⟩) :: c.mTypes,
      c.mAllocator⟩,
      s.globalPoolAllocator, s.nextPtr + 1, s.nextArena⟩, ?_, rfl⟩
  have hrun := runConcurrentGetType_hits b p q ps ss n
    ⟨some ⟨(TCache.TypeKey.value b p q ps ss,
        ⟨s.nextPtr, c.mAllocator, b, p, q, ps, ss, true⟩) :: c.mTypes,
      c.mAllocator⟩,
      s.globalPoolAllocator, s.nextPtr + 1, s.nextArena⟩
    ⟨(TCache.TypeKey.value b p q ps ss,
        ⟨s.nextPtr, c.mAllocator, b, p, q, ps, ss, true⟩) :: c.mTypes,
      c.mAllocator⟩
    ⟨s.nextPtr, c.mAllocator, b, p, q, ps, ss, true⟩ rfl
    (findType_cons_self _ _ _)
  unfold runConcurrentGetType
  rw [getType_miss_eq b p q ps ss s c h hm]
  simp only [hrun, List.replicate_succ]

/-- C4 witness: three calls from a fresh cache. -/
theorem getType_concurrent_once_witness :
    ∃ t s1, runConcurrentGetType 1 2 3 1 1 (2 + 1) freshCacheState
        = some (List.replicate (2 + 1) t, s1) ∧
      s1.nextPtr = freshCacheState.nextPtr + 1 :=
  getType_concurrent_once 1 2 3 1 1 2 freshCacheState ⟨[], 1⟩ rfl rfl

/-- C5: a second `initCache` call while the singleton exists is a no-op:
the whole process state after two calls equals the state after one (same
singleton instance, no second construction, counters untouched), so a
subsequent `getType` behaves identically in the two runs. -/
theorem initCache_idempotent (s : GlobalState) :
    TCache.initCache (TCache.initCache s) = TCache.initCache s ∧
    ∀ b p q ps ss,
      TCache.getType b p q ps ss (TCache.initCache (TCache.initCache s))
        = TCache.getType b p q ps ss (TCache.initCache s) := by
  have h : TCache.initCache (TCache.initCache s) = TCache.initCache s := by
    cases hs : s.sCache with
    | some c => simp [TCache.initCache, hs]
    | none => simp [TCache.initCache, TCache.construct, hs]
  exact ⟨h, fun b p q ps ss => by rw [h]⟩

/-- C7: `destroy` always leaves the singleton pointer null, and when no
instance exists it is a total no-op on the whole process state. -/
theorem destroy_spec (s : GlobalState) :
    (TCache.destroy s).sCache = none ∧
    (s.sCache = none → TCache.destroy s = s) := by
  obtain ⟨sc, g, np, na⟩ := s
  refine ⟨rfl, fun h => ?_⟩
  simp only at h
  rw [TCache.destroy, h]

/-- C7 witness: `destroy` at the initial (no-instance) state. -/
theorem destroy_spec_witness :
    (TCache.destroy initialState).sCache = none ∧
    TCache.destroy initialState = initialState :=
  ⟨(destroy_spec initialState).1, (destroy_spec initialState).2 rfl⟩

/-- C8: key construction is deterministic bit for bit: the result does not
depend on the union storage's prior (indeterminate) contents, because the
constructor first zeroes `value`; and every bit above the five packed byte
fields (bit 40 and up) is zero, so the whole key is a function of the
tuple alone. -/
theorem typeKey_deterministic (u u' b p q ps ss : Nat) :
    TCache.TypeKey.construct u b p q ps ss
      = TCache.TypeKey.construct u' b p q ps ss ∧
    TCache.TypeKey.construct u b p q ps ss < 2 ^ 40 := by
  refine ⟨rfl, ?_⟩
  unfold TCache.TypeKey.construct
  have hb := Nat.mod_lt b (show 0 < 256 by decide)
  have hp := Nat.mod_lt p (show 0 < 256 by decide)
  have hq := Nat.mod_lt q (show 0 < 256 by decide)
  have hps := Nat.mod_lt ps (show 0 < 256 by decide)
  have hss := Nat.mod_lt ss (show 0 < 256 by decide)
  simp only
  omega

/-- C6: a tuple cached before a `destroy` yields, after `destroy` followed
by `initCache`, a freshly constructed object distinct from the one
returned before the `destroy`: the new session's mapping is empty, so the
request misses and constructs a new descriptor. -/
theorem getType_fresh_after_destroy (b p q ps ss : Nat) (s : GlobalState)
    (c : TCacheState) (t1 : TType) (s1 : GlobalState)
    (hwf : WF s) (h : s.sCache = some c)
    (h1 : TCache.getType b p q ps ss s = some (t1, s1)) :
    ∃ t2 s2, TCache.getType b p q ps ss
        (TCache.initCache (TCache.destroy s1)) = some (t2, s2) ∧
      t2.ptr ≠ t1.ptr := by
  have hlt : t1.ptr < s1.nextPtr := by
    cases hf : findType c.mTypes (TCache.TypeKey.value b p q ps ss) with
    | some t =>
        rw [getType_hit_eq b p q ps ss s c t h hf] at h1
        injection h1 with h2
        injection h2 with h2t h2s
        subst h2t
        subst h2s
        exact (hwf.2 c h _ (findType_mem _ _ _ hf)).2
    | none =>
        rw [getType_miss_eq b p q ps ss s c h hf] at h1
        injection h1 with h2
        injection h2 with h2t h2s
        subst h2t
        subst h2s
        show s.nextPtr < s.nextPtr + 1
        omega
  have h2 := getType_miss_eq b p q ps ss
    (TCache.initCache (TCache.destroy s1)) ⟨[], s1.nextArena⟩ rfl rfl
  refine ⟨_, _, h2, ?_⟩
  show s1.nextPtr ≠ t1.ptr
  omega

/-- C6 witness: cache `(1,2,3,1,1)`, tear the session down, request it
again. -/
theorem getType_fresh_after_destroy_witness :
    ∃ t2 s2, TCache.getType 1 2 3 1 1
        (TCache.initCache (TCache.destroy
          ⟨some ⟨[(TCache.TypeKey.value 1 2 3 1 1,
              ⟨1, 1, 1, 2, 3, 1, 1, true⟩)], 1⟩, 0, 2, 2⟩))
        = some (t2, s2) ∧
      t2.ptr ≠ (TType.mk 1 1 1 2 3 1 1 true).ptr :=
  getType_fresh_after_destroy 1 2 3 1 1 freshCacheState ⟨[], 1⟩
    ⟨1, 1, 1, 2, 3, 1, 1, true⟩
    ⟨some ⟨[(TCache.TypeKey.value 1 2 3 1 1,
        ⟨1, 1, 1, 2, 3, 1, 1, true⟩)], 1⟩, 0, 2, 2⟩
    (by decide) rfl (by decide)

/-- Modelled from the spec: `EnumComponentType` is the one-byte narrow
component type of `TypeKey`, chosen in `Cache.h` (a header of this
repository absent from `src/`); this is
`std::numeric_limits<EnumComponentType>::max()` for an unsigned byte. -/
def EnumComponentType.maxValue : Nat := 255

/-- Modelled from the spec: the sentinel enumerators `EbtLast`, `EbpLast`
and `EvqLast` of `TBasicType`, `TPrecision` and `TQualifier` are declared
in headers absent from `src/`; the spec states that each enumerated
field's maximum legal value fits within the chosen one-byte narrow
width. -/
def enumDomainsFitByte (ebtLast ebpLast evqLast : Nat) : Prop :=
  ebtLast ≤ 255 ∧ ebpLast ≤ 255 ∧ evqLast ≤ 255

/-- The condition of the debug `ASSERT` at Cache.cpp:50-53: each sentinel
is compared against the narrow type's maximum (the trailing string literal
of the C++ `&&` chain is a nonzero constant and drops out). -/
def typeKeyDomainAssert (ebtLast ebpLast evqLast : Nat) : Bool :=
  decide (EnumComponentType.maxValue ≥ ebtLast) &&
  decide (EnumComponentType.maxValue ≥ ebpLast) &&
  decide (EnumComponentType.maxValue ≥ evqLast)

/-- C9: the debug assertion at `TypeKey` construction is valid - whenever
the enumerated domains obey the spec's stated bound (each fits the
one-byte component width), the asserted condition evaluates to true, so
the assertion never fires. -/
theorem typeKeyDomainAssert_valid (e b q : Nat)
    (h : enumDomainsFitByte e b q) :
    typeKeyDomainAssert e b q = true := by
  obtain ⟨h1, h2, h3⟩ := h
  simp only [typeKeyDomainAssert, EnumComponentType.maxValue,
    Bool.and_eq_true, decide_eq_true_eq, ge_iff_le]
  omega

/-- C9 witness at representative sentinel values. -/
theorem typeKeyDomainAssert_valid_witness :
    enumDomainsFitByte 34 4 40 ∧ typeKeyDomainAssert 34 4 40 = true :=
  ⟨by simp [enumDomainsFitByte],
   typeKeyDomainAssert_valid 34 4 40 (by simp [enumDomainsFitByte])⟩

/-- C10: with the cache live (between `initCache` and `destroy`),
`getType` always returns a non-null pointer - the hit path returns a
stored pointer (never null by the insertion invariant), the miss path
returns the fresh descriptor - and the state stays well formed: no null
pointer is ever inserted into the mapping. -/
theorem getType_no_null (b p q ps ss : Nat) (s : GlobalState)
    (c : TCacheState) (h : s.sCache = some c) (hwf : WF s) :
    ∃ t s1, TCache.getType b p q ps ss s = some (t, s1) ∧
      t.ptr ≠ 0 ∧ WF s1 := by
  cases hf : findType c.mTypes (TCache.TypeKey.value b p q ps ss) with
  | some t =>
      refine ⟨t, s, getType_hit_eq b p q ps ss s c t h hf, ?_, hwf⟩
      have hmem : 0 < t.ptr := (hwf.2 c h _ (findType_mem _ _ _ hf)).1
      omega
  | none =>
      refine ⟨_, _, getType_miss_eq b p q ps ss s c h hf, ?_, ?_, ?_⟩
      · show s.nextPtr ≠ 0
        have := hwf.1
        omega
      · show 0 < s.nextPtr + 1
        omega
      · intro c1 hc1 kt hkt
        injection hc1 with hc1'
        subst hc1'
        rcases List.mem_cons.mp hkt with hkt | hkt
        · subst hkt
          refine ⟨?_, ?_⟩
          · show 0 < s.nextPtr
            exact hwf.1
          · show s.nextPtr < s.nextPtr + 1
            omega
        · have := hwf.2 c h kt hkt
          show 0 < kt.2.ptr ∧ kt.2.ptr < s.nextPtr + 1
          omega

/-- C10 witness at a fresh cache. -/
theorem getType_no_null_witness :
    ∃ t s1, TCache.getType 1 2 3 1 1 freshCacheState = some (t, s1) ∧
      t.ptr ≠ 0 ∧ WF s1 :=
  getType_no_null 1 2 3 1 1 freshCacheState ⟨[], 1⟩ rfl (by decide)
